import Mathlib

/-!
Shallow embedding of the frame compositor `decodeGif` from
`src/gif-decoder.ts` of the gif2vid repository.

Pixel buffers (`Uint8Array`) are modelled as `List Nat`; an in-place element
write `buf[i] = v` is `List.set i (v % 256)` (out-of-range indices are
ignored and values are stored modulo 256, matching typed-array semantics).
The external parser (omggif `GifReader`) is abstract: it reports dimensions,
a frame count, per-frame metadata, and — since `decodeAndBlitFrameRGBA(i, buf)`
can only mutate the buffer it is handed element by element — each frame's
blit is modelled as the list of in-place writes it performs.
-/

/-- Frame metadata as returned by `reader.frameInfo(i)`: local rectangle,
raw delay in centiseconds (possibly absent), and disposal code. -/
structure FrameInfo where
  x : Nat
  y : Nat
  width : Nat
  height : Nat
  delay : Option Nat
  disposal : Nat
deriving DecidableEq, Repr

/-- Output frame record pushed onto `frames` by `decodeGif`. -/
structure GifFrame where
  data : List Nat
  delay : Nat
  width : Nat
  height : Nat
deriving DecidableEq, Repr

/-- Result record `{ frames, width, height }` returned by `decodeGif`. -/
structure DecodedGif where
  frames : List GifFrame
  width : Nat
  height : Nat
deriving DecidableEq, Repr

/-- Abstract deterministic parser (omggif `GifReader`): dimensions, frame
count, frame metadata, and the in-place writes performed by
`decodeAndBlitFrameRGBA(i, canvasBuffer)` for each frame index. -/
structure GifParser where
  width : Nat
  height : Nat
  numFrames : Nat
  frameInfo : Nat → FrameInfo
  blit : Nat → List (Nat × Nat)

/-- The JavaScript expression `d || 10` applied to `frameInfo.delay`, which
may be absent (`undefined`) or zero; both fall back to 10. -/
def delayOrDefault : Option Nat → Nat
  | none => 10
  | some 0 => 10
  | some (d + 1) => d + 1

/-- Model of `TypedArray.prototype.set`: `dst.set(src)` overwrites
positions `0 .. src.length` of `dst` with `src`, keeping the rest. -/
def typedArraySet (dst src : List Nat) : List Nat :=
  src ++ dst.drop src.length

/-- Apply a sequence of in-place element writes to a buffer, with
`Uint8Array` semantics: out-of-range indices are ignored and values are
stored modulo 256. -/
def applyWrites (ws : List (Nat × Nat)) (c : List Nat) : List Nat :=
  ws.foldl (fun acc w => acc.set w.1 (w.2 % 256)) c

/-- Index sequence visited by the disposal-2 background-fill loops
(`for y ...; for x ...` with `y < height` and `x < width` clamps; each
pixel contributes its four byte indices `idx .. idx+3`). -/
def fillIdxs (w h : Nat) (fi : FrameInfo) : List Nat :=
  (List.range' fi.y (min (fi.y + fi.height) h - fi.y)).flatMap (fun y =>
    (List.range' fi.x (min (fi.x + fi.width) w - fi.x)).flatMap (fun x =>
      [(y * w + x) * 4, (y * w + x) * 4 + 1, (y * w + x) * 4 + 2,
        (y * w + x) * 4 + 3]))

/-- Disposal-2 "restore to background": write 255 into every byte of every
pixel of the previous frame's rectangle, clamped to canvas bounds. -/
def fillBackground (w h : Nat) (fi : FrameInfo) (c : List Nat) : List Nat :=
  (fillIdxs w h fi).foldl (fun acc idx => acc.set idx 255) c

/-- The disposal block run at the top of iteration `i` (for `i > 0`) on the
previous frame's info: code 2 fills the rectangle with opaque white, code 3
restores the snapshot when one exists (`canvasBuffer.set(previousCanvasBuffer)`),
and any other code leaves the canvas as-is. -/
def applyDisposal (w h : Nat) (prevFrameInfo : FrameInfo)
    (previousCanvasBuffer : Option (List Nat)) (canvasBuffer : List Nat) :
    List Nat :=
  if prevFrameInfo.disposal = 2 then
    fillBackground w h prevFrameInfo canvasBuffer
  else if prevFrameInfo.disposal = 3 then
    match previousCanvasBuffer with
    | some prev => typedArraySet canvasBuffer prev
    | none => canvasBuffer
  else
    canvasBuffer

/-- Loop state of `decodeGif`: the composition canvas, the optional
disposal-3 snapshot, and the frames accumulated so far. -/
structure DecodeState where
  canvasBuffer : List Nat
  previousCanvasBuffer : Option (List Nat)
  frames : List GifFrame
deriving DecidableEq, Repr

/-- The canvas allocated and zero-initialised before the loop. -/
def initCanvas (w h : Nat) : List Nat :=
  List.replicate (w * h * 4) 0

/-- Initial loop state: zeroed canvas, no snapshot, no frames. -/
def initState (p : GifParser) : DecodeState :=
  { canvasBuffer := initCanvas p.width p.height
    previousCanvasBuffer := none
    frames := [] }

/-- One iteration of the frame loop of `decodeGif`: apply the previous
frame's disposal (skipped for `i = 0`), snapshot the canvas when the current
frame's disposal is 3, blit frame `i` in place, and push a copy of the
canvas together with the converted delay. -/
def stepFrame (p : GifParser) (st : DecodeState) (i : Nat) : DecodeState :=
  let frameInfo := p.frameInfo i
  let c1 :=
    if i > 0 then
      applyDisposal p.width p.height (p.frameInfo (i - 1))
        st.previousCanvasBuffer st.canvasBuffer
    else
      st.canvasBuffer
  let snap := if frameInfo.disposal = 3 then some c1 else st.previousCanvasBuffer
  let c2 := applyWrites (p.blit i) c1
  { canvasBuffer := c2
    previousCanvasBuffer := snap
    frames := st.frames ++
      [{ data := c2
         delay := delayOrDefault frameInfo.delay * 10
         width := p.width
         height := p.height }] }

/-- Loop state after the first `n` iterations of `decodeGif`. -/
def stateAfter (p : GifParser) (n : Nat) : DecodeState :=
  (List.range n).foldl (stepFrame p) (initState p)

/-- The decoder: run the loop over all frames and return
`{ frames, width, height }`. -/
def decodeGif (p : GifParser) : DecodedGif :=
  { frames := (stateAfter p p.numFrames).frames
    width := p.width
    height := p.height }

/-- The canvas used to start frame `i`: the canvas after the disposal
transition into frame `i` and before frame `i` is blitted. -/
def canvasStarting (p : GifParser) (i : Nat) : List Nat :=
  if i = 0 then
    initCanvas p.width p.height
  else
    applyDisposal p.width p.height (p.frameInfo (i - 1))
      (stateAfter p i).previousCanvasBuffer (stateAfter p i).canvasBuffer

/-- The OutputFrame emitted for frame `i`: a copy of the canvas taken right
after frame `i` was blitted, together with the converted delay. -/
def emittedFrame (p : GifParser) (i : Nat) : GifFrame :=
  { data := applyWrites (p.blit i) (canvasStarting p i)
    delay := delayOrDefault (p.frameInfo i).delay * 10
    width := p.width
    height := p.height }

/-- Modelled from the spec: the delay formula of §4.1 step 4, stated in the
spec's own words — `max(rawDelayCentiseconds, 1) × 10` milliseconds, with
`rawDelayCentiseconds` defaulting to 10 when absent or zero. Kept separate
from `delayOrDefault` (translated from the source) so the two can be
compared. -/
def specDelay (raw : Option Nat) : Nat :=
  max (match raw with
    | none => 10
    | some 0 => 10
    | some d => d) 1 * 10

/-!
Fallible-parser variant. In the source, `new GifReader(...)`,
`reader.frameInfo(i)` and `reader.decodeAndBlitFrameRGBA(i, buf)` may throw;
`decodeGif` wraps none of them in try/catch, so any such exception
propagates out before the result object is built. We model JavaScript
exceptions with `Except`.
-/

/-- Abstract fallible parser: same shape as `GifParser` but `frameInfo` and
the blit may fail (throw). -/
structure GifReaderOps (ε : Type) where
  width : Nat
  height : Nat
  numFrames : Nat
  frameInfo : Nat → Except ε FrameInfo
  blit : Nat → Except ε (List (Nat × Nat))

/-- One iteration of the frame loop with a fallible parser, mirroring the
call order of the source: `frameInfo(i)`, then (for `i > 0`)
`frameInfo(i-1)` and the disposal block, the snapshot, then
`decodeAndBlitFrameRGBA(i, canvasBuffer)`. -/
def stepFrameE {ε : Type} (p : GifReaderOps ε) (st : DecodeState) (i : Nat) :
    Except ε DecodeState := do
  let frameInfo ← p.frameInfo i
  let c1 ←
    if i > 0 then do
      let prevFrameInfo ← p.frameInfo (i - 1)
      pure (applyDisposal p.width p.height prevFrameInfo
        st.previousCanvasBuffer st.canvasBuffer)
    else
      pure st.canvasBuffer
  let snap := if frameInfo.disposal = 3 then some c1 else st.previousCanvasBuffer
  let ws ← p.blit i
  let c2 := applyWrites ws c1
  pure
    { canvasBuffer := c2
      previousCanvasBuffer := snap
      frames := st.frames ++
        [{ data := c2
           delay := delayOrDefault frameInfo.delay * 10
           width := p.width
           height := p.height }] }

/-- Initial loop state for the fallible variant. -/
def initStateE {ε : Type} (p : GifReaderOps ε) : DecodeState :=
  { canvasBuffer := initCanvas p.width p.height
    previousCanvasBuffer := none
    frames := [] }

/-- The decoder over a fallible parser whose construction
(`new GifReader(uint8Array)`) may itself fail. -/
def decodeGifE {ε : Type} (reader : Except ε (GifReaderOps ε)) :
    Except ε DecodedGif := do
  let p ← reader
  let final ← (List.range p.numFrames).foldlM (stepFrameE p) (initStateE p)
  pure { frames := final.frames, width := p.width, height := p.height }

/-- View an infallible parser as a fallible one none of whose operations
ever fails. -/
def liftReader (ε : Type) (q : GifParser) : GifReaderOps ε :=
  { width := q.width
    height := q.height
    numFrames := q.numFrames
    frameInfo := fun i => .ok (q.frameInfo i)
    blit := fun i => .ok (q.blit i) }

/-!
Heap (allocation) model. Buffer-identity claims — that every
`new Uint8Array(...)` copy shares no storage with the canvas, the snapshot
or any other emitted frame — are invisible in the pure model, so we run the
same algorithm once more over an explicit heap in which every allocation
returns a fresh address and in-place mutation is a store at an address.
-/

/-- Heap of allocated `Uint8Array`s: the address of a buffer is its
allocation index. -/
structure Heap where
  store : List (List Nat)
deriving DecidableEq, Repr

/-- Allocate a fresh buffer (`new Uint8Array(...)`): returns its address. -/
def Heap.alloc (h : Heap) (v : List Nat) : Nat × Heap :=
  (h.store.length, ⟨h.store ++ [v]⟩)

/-- Read the buffer at an address (empty for a dangling address). -/
def Heap.lookup (h : Heap) (a : Nat) : List Nat :=
  (h.store[a]?).getD []

/-- Overwrite the buffer at an address in place. -/
def Heap.write (h : Heap) (a : Nat) (v : List Nat) : Heap :=
  ⟨h.store.set a v⟩

/-- An emitted frame in the heap model: the address of its pixel buffer
plus the copied metadata. -/
structure FrameRef where
  dataAddr : Nat
  delay : Nat
  width : Nat
  height : Nat
deriving DecidableEq, Repr

/-- Loop state of `decodeGif` in the heap model. -/
structure HeapState where
  heap : Heap
  canvasAddr : Nat
  snapAddr : Option Nat
  frames : List FrameRef
deriving DecidableEq, Repr

/-- One iteration of the frame loop in the heap model: the disposal block
and the blit mutate the canvas buffer in place at `canvasAddr`; the
disposal-3 snapshot and the emitted `pixelData` are fresh allocations
(`new Uint8Array(canvasBuffer)`). -/
def stepFrameH (p : GifParser) (st : HeapState) (i : Nat) : HeapState :=
  let frameInfo := p.frameInfo i
  let heap1 :=
    if i > 0 then
      st.heap.write st.canvasAddr
        (applyDisposal p.width p.height (p.frameInfo (i - 1))
          (st.snapAddr.map st.heap.lookup) (st.heap.lookup st.canvasAddr))
    else
      st.heap
  let snapAlloc :=
    if frameInfo.disposal = 3 then
      let fresh := heap1.alloc (heap1.lookup st.canvasAddr)
      (some fresh.1, fresh.2)
    else
      (st.snapAddr, heap1)
  let heap2 := snapAlloc.2
  let heap3 := heap2.write st.canvasAddr
    (applyWrites (p.blit i) (heap2.lookup st.canvasAddr))
  let dataAlloc := heap3.alloc (heap3.lookup st.canvasAddr)
  { heap := dataAlloc.2
    canvasAddr := st.canvasAddr
    snapAddr := snapAlloc.1
    frames := st.frames ++
      [{ dataAddr := dataAlloc.1
         delay := delayOrDefault frameInfo.delay * 10
         width := p.width
         height := p.height }] }

/-- Initial state of the heap model: one allocation, the zeroed canvas. -/
def initStateH (p : GifParser) : HeapState :=
  let a := Heap.alloc ⟨[]⟩ (initCanvas p.width p.height)
  { heap := a.2, canvasAddr := a.1, snapAddr := none, frames := [] }

/-- Heap-model loop state after the first `n` iterations. -/
def stateAfterH (p : GifParser) (n : Nat) : HeapState :=
  (List.range n).foldl (stepFrameH p) (initStateH p)

/-- The decoder in the heap model (the final state, so that the canvas and
snapshot addresses remain visible to the independence statements). -/
def decodeGifH (p : GifParser) : HeapState :=
  stateAfterH p p.numFrames

/-- Forget addresses: read every buffer of a heap-model state back into a
pure `DecodeState`. -/
def absState (st : HeapState) : DecodeState :=
  { canvasBuffer := st.heap.lookup st.canvasAddr
    previousCanvasBuffer := st.snapAddr.map st.heap.lookup
    frames := st.frames.map (fun fr =>
      { data := st.heap.lookup fr.dataAddr
        delay := fr.delay
        width := fr.width
        height := fr.height }) }

/-- Separation invariant of the heap model: the canvas, the snapshot and
every emitted frame live at pairwise distinct live addresses. -/
def HeapInv (st : HeapState) : Prop :=
  st.canvasAddr < st.heap.store.length ∧
  (st.frames.map FrameRef.dataAddr).Pairwise (· < ·) ∧
  (∀ fr ∈ st.frames, fr.dataAddr < st.heap.store.length ∧
    fr.dataAddr ≠ st.canvasAddr ∧ ∀ sa ∈ st.snapAddr, fr.dataAddr ≠ sa) ∧
  (∀ sa ∈ st.snapAddr, sa < st.heap.store.length ∧ sa ≠ st.canvasAddr)

/-!
Concrete example parsers used to instantiate the theorems: a 2×2-canvas,
3-frame GIF whose first frame uses disposal 2 with a rectangle reaching
beyond the canvas, whose second uses disposal 3, and whose blit write lists
include an out-of-range index.
-/

/-- Example frame metadata. -/
def exFrameInfo : Nat → FrameInfo
  | 0 => { x := 1, y := 0, width := 3, height := 1, delay := some 5, disposal := 2 }
  | 1 => { x := 0, y := 0, width := 1, height := 1, delay := some 0, disposal := 3 }
  | _ => { x := 0, y := 0, width := 2, height := 2, delay := none, disposal := 1 }

/-- Example blit write lists (frame 1 includes an out-of-range write). -/
def exBlit : Nat → List (Nat × Nat)
  | 0 => [(0, 7), (1, 8), (2, 9), (3, 255)]
  | 1 => [(4, 1), (50, 2)]
  | _ => [(0, 300)]

/-- Example parser: 2×2 canvas, 3 frames. -/
def exParser : GifParser :=
  { width := 2, height := 2, numFrames := 3, frameInfo := exFrameInfo, blit := exBlit }

/-- Example frame metadata differing from `exFrameInfo` only in the last
frame's disposal code. -/
def exFrameInfo2 : Nat → FrameInfo
  | 0 => { x := 1, y := 0, width := 3, height := 1, delay := some 5, disposal := 2 }
  | 1 => { x := 0, y := 0, width := 1, height := 1, delay := some 0, disposal := 3 }
  | _ => { x := 0, y := 0, width := 2, height := 2, delay := none, disposal := 2 }

/-- Example parser identical to `exParser` except for the last frame's
disposal code. -/
def exParser2 : GifParser :=
  { width := 2, height := 2, numFrames := 3, frameInfo := exFrameInfo2, blit := exBlit }

/-!
Helper lemmas about the loop and the buffer primitives.
-/

lemma stateAfter_zero (p : GifParser) : stateAfter p 0 = initState p := rfl

lemma stateAfter_succ (p : GifParser) (n : Nat) :
    stateAfter p (n + 1) = stepFrame p (stateAfter p n) n := by
  simp [stateAfter, List.range_succ]

lemma applyWrites_cons (w : Nat × Nat) (ws : List (Nat × Nat)) (buf : List Nat) :
    applyWrites (w :: ws) buf = applyWrites ws (buf.set w.1 (w.2 % 256)) := rfl

lemma length_applyWrites (ws : List (Nat × Nat)) (buf : List Nat) :
    (applyWrites ws buf).length = buf.length := by
  induction ws generalizing buf with
  | nil => rfl
  | cons w t ih => rw [applyWrites_cons, ih, List.length_set]

lemma fill255_cons (i : Nat) (t : List Nat) (buf : List Nat) :
    (i :: t).foldl (fun acc idx => acc.set idx 255) buf =
      t.foldl (fun acc idx => acc.set idx 255) (buf.set i 255) := rfl

lemma length_fill255 (idxs : List Nat) (buf : List Nat) :
    (idxs.foldl (fun acc idx => acc.set idx 255) buf).length = buf.length := by
  induction idxs generalizing buf with
  | nil => rfl
  | cons i t ih => rw [fill255_cons, ih, List.length_set]

lemma getElem?_fill255_notMem {idxs : List Nat} {j : Nat} (buf : List Nat)
    (h : j ∉ idxs) :
    (idxs.foldl (fun acc idx => acc.set idx 255) buf)[j]? = buf[j]? := by
  induction idxs generalizing buf with
  | nil => rfl
  | cons i t ih =>
    rw [fill255_cons, ih (buf.set i 255) (fun ht => h (List.mem_cons_of_mem i ht))]
    exact List.getElem?_set_ne (fun hij => h (by rw [← hij]; exact List.mem_cons_self i t))

lemma getElem?_fill255_pres {idxs : List Nat} {j : Nat} {buf : List Nat}
    (h : buf[j]? = some 255) :
    (idxs.foldl (fun acc idx => acc.set idx 255) buf)[j]? = some 255 := by
  induction idxs generalizing buf with
  | nil => exact h
  | cons i t ih =>
    rw [fill255_cons]
    refine ih ?_
    by_cases hij : i = j
    · subst hij
      have hlt : i < buf.length := by
        by_contra hge
        rw [List.getElem?_eq_none (by omega)] at h
        exact Option.noConfusion h
      exact List.getElem?_set_eq_of_lt 255 hlt
    · rw [List.getElem?_set_ne hij]
      exact h

lemma getElem?_fill255_mem {idxs : List Nat} {j : Nat} {buf : List Nat}
    (h : j ∈ idxs) (hj : j < buf.length) :
    (idxs.foldl (fun acc idx => acc.set idx 255) buf)[j]? = some 255 := by
  induction idxs generalizing buf with
  | nil => exact absurd h (List.not_mem_nil j)
  | cons i t ih =>
    rw [fill255_cons]
    by_cases hij : i = j
    · subst hij
      exact getElem?_fill255_pres (List.getElem?_set_eq_of_lt 255 hj)
    · rcases List.mem_cons.mp h with h1 | h1
      · exact absurd h1.symm hij
      · exact ih h1 (by rw [List.length_set]; exact hj)

lemma length_fillBackground (w h : Nat) (fi : FrameInfo) (buf : List Nat) :
    (fillBackground w h fi buf).length = buf.length :=
  length_fill255 _ buf

lemma mem_fillIdxs {w h : Nat} {fi : FrameInfo} {j : Nat} :
    j ∈ fillIdxs w h fi ↔
      ∃ y x k, fi.y ≤ y ∧ y < fi.y + fi.height ∧ y < h ∧
        fi.x ≤ x ∧ x < fi.x + fi.width ∧ x < w ∧ k < 4 ∧
        j = (y * w + x) * 4 + k := by
  have hminy1 : min (fi.y + fi.height) h ≤ fi.y + fi.height := Nat.min_le_left ..
  have hminy2 : min (fi.y + fi.height) h ≤ h := Nat.min_le_right ..
  have hminy3 : fi.y + fi.height ≤ min (fi.y + fi.height) h ∨
      h ≤ min (fi.y + fi.height) h := by
    rcases Nat.le_total (fi.y + fi.height) h with hle | hle
    · exact Or.inl (by omega)
    · exact Or.inr (by omega)
  have hminx1 : min (fi.x + fi.width) w ≤ fi.x + fi.width := Nat.min_le_left ..
  have hminx2 : min (fi.x + fi.width) w ≤ w := Nat.min_le_right ..
  have hminx3 : fi.x + fi.width ≤ min (fi.x + fi.width) w ∨
      w ≤ min (fi.x + fi.width) w := by
    rcases Nat.le_total (fi.x + fi.width) w with hle | hle
    · exact Or.inl (by omega)
    · exact Or.inr (by omega)
  simp only [fillIdxs, List.mem_flatMap, List.mem_range'_1, List.mem_cons,
    List.not_mem_nil, or_false]
  constructor
  · rintro ⟨y, hy, x, hx, hj⟩
    refine ⟨y, x, ?_⟩
    rcases hj with hj | hj | hj | hj
    · exact ⟨0, by omega, by omega, by omega, by omega, by omega, by omega,
        by omega, by omega⟩
    · exact ⟨1, by omega, by omega, by omega, by omega, by omega, by omega,
        by omega, by omega⟩
    · exact ⟨2, by omega, by omega, by omega, by omega, by omega, by omega,
        by omega, by omega⟩
    · exact ⟨3, by omega, by omega, by omega, by omega, by omega, by omega,
        by omega, by omega⟩
  · rintro ⟨y, x, k, h1, h2, h3, h4, h5, h6, h7, h8⟩
    refine ⟨y, by omega, x, by omega, ?_⟩
    subst h8
    interval_cases k
    · exact Or.inl rfl
    · exact Or.inr (Or.inl rfl)
    · exact Or.inr (Or.inr (Or.inl rfl))
    · exact Or.inr (Or.inr (Or.inr rfl))

lemma fillIdxs_lt {w h : Nat} {fi : FrameInfo} {j : Nat}
    (hj : j ∈ fillIdxs w h fi) : j < w * h * 4 := by
  rcases mem_fillIdxs.mp hj with ⟨y, x, k, _, _, h3, _, _, h6, h7, h8⟩
  have hyx : y * w + x < h * w := by
    calc y * w + x < y * w + w := by omega
    _ = (y + 1) * w := by ring
    _ ≤ h * w := Nat.mul_le_mul_right w (by omega)
  have hwh : w * h * 4 = h * w * 4 := by ring
  omega

lemma typedArraySet_of_length_eq {dst src : List Nat}
    (h : src.length = dst.length) : typedArraySet dst src = src := by
  rw [typedArraySet, List.drop_eq_nil_of_le (by omega), List.append_nil]

lemma length_applyDisposal {w h : Nat} {fi : FrameInfo}
    {snap : Option (List Nat)} {buf : List Nat}
    (hs : ∀ s ∈ snap, s.length = buf.length) :
    (applyDisposal w h fi snap buf).length = buf.length := by
  rcases snap with _ | s
  · rw [applyDisposal.eq_def]
    split
    · exact length_fillBackground w h fi buf
    · split <;> rfl
  · have hlen : s.length = buf.length := hs s rfl
    rw [applyDisposal.eq_def]
    split
    · exact length_fillBackground w h fi buf
    · split
      · show (typedArraySet buf s).length = buf.length
        rw [typedArraySet_of_length_eq hlen]
        exact hlen
      · rfl

lemma length_initCanvas (w h : Nat) : (initCanvas w h).length = w * h * 4 :=
  List.length_replicate ..

lemma canvasStarting_eq (p : GifParser) (n : Nat) :
    canvasStarting p n =
      (if n > 0 then
        applyDisposal p.width p.height (p.frameInfo (n - 1))
          (stateAfter p n).previousCanvasBuffer (stateAfter p n).canvasBuffer
      else (stateAfter p n).canvasBuffer) := by
  cases n with
  | zero => simp [canvasStarting, stateAfter, initState]
  | succ m => simp [canvasStarting]

lemma stateAfter_succ_canvas (p : GifParser) (n : Nat) :
    (stateAfter p (n + 1)).canvasBuffer =
      applyWrites (p.blit n) (canvasStarting p n) := by
  rw [stateAfter_succ, canvasStarting_eq]
  simp only [stepFrame]

lemma stateAfter_succ_snap (p : GifParser) (n : Nat) :
    (stateAfter p (n + 1)).previousCanvasBuffer =
      (if (p.frameInfo n).disposal = 3 then some (canvasStarting p n)
       else (stateAfter p n).previousCanvasBuffer) := by
  rw [stateAfter_succ, canvasStarting_eq]
  simp only [stepFrame]

lemma stateAfter_succ_frames (p : GifParser) (n : Nat) :
    (stateAfter p (n + 1)).frames =
      (stateAfter p n).frames ++ [emittedFrame p n] := by
  rw [stateAfter_succ, emittedFrame.eq_def, canvasStarting_eq]
  simp only [stepFrame]

lemma stateInv (p : GifParser) (n : Nat) :
    (stateAfter p n).canvasBuffer.length = p.width * p.height * 4 ∧
      ∀ s ∈ (stateAfter p n).previousCanvasBuffer,
        s.length = p.width * p.height * 4 := by
  induction n with
  | zero =>
    refine ⟨length_initCanvas p.width p.height, ?_⟩
    intro s hs
    exact absurd hs (by simp [stateAfter, initState])
  | succ m ih =>
    rcases ih with ⟨ihc, ihs⟩
    have hc1 : (canvasStarting p m).length = p.width * p.height * 4 := by
      rw [canvasStarting_eq]
      split
      · rw [length_applyDisposal (fun s hs => by rw [ihs s hs, ihc])]
        exact ihc
      · exact ihc
    constructor
    · rw [stateAfter_succ_canvas, length_applyWrites]
      exact hc1
    · intro s hs
      rw [stateAfter_succ_snap] at hs
      split at hs
      · rw [Option.mem_def, Option.some_inj] at hs
        rw [← hs]
        exact hc1
      · exact ihs s hs

lemma length_canvasBuffer (p : GifParser) (n : Nat) :
    (stateAfter p n).canvasBuffer.length = p.width * p.height * 4 :=
  (stateInv p n).1

lemma length_canvasStarting (p : GifParser) (n : Nat) :
    (canvasStarting p n).length = p.width * p.height * 4 := by
  rw [canvasStarting_eq]
  split
  · rw [length_applyDisposal (fun s hs => by
      rw [(stateInv p n).2 s hs, length_canvasBuffer])]
    exact length_canvasBuffer p n
  · exact length_canvasBuffer p n

lemma length_frames (p : GifParser) (n : Nat) :
    (stateAfter p n).frames.length = n := by
  induction n with
  | zero => rfl
  | succ m ih => rw [stateAfter_succ_frames]; simp [ih]

lemma getElem?_frames (p : GifParser) {i n : Nat} (h : i < n) :
    (stateAfter p n).frames[i]? = some (emittedFrame p i) := by
  induction n with
  | zero => omega
  | succ m ih =>
    rw [stateAfter_succ_frames]
    by_cases him : i < m
    · rw [List.getElem?_append_left (by rw [length_frames]; exact him)]
      exact ih him
    · have him2 : i = m := by omega
      subst him2
      rw [List.getElem?_append_right (by rw [length_frames])]
      rw [length_frames]
      simp

lemma snapshot_of_disposal3 (p : GifParser) {i : Nat}
    (hd : (p.frameInfo i).disposal = 3) :
    (stateAfter p (i + 1)).previousCanvasBuffer =
      some (canvasStarting p i) := by
  rw [stateAfter_succ_snap, if_pos hd]

lemma delayOrDefault_eq_specDelay (d : Option Nat) :
    delayOrDefault d * 10 = specDelay d := by
  rcases d with _ | d
  · rfl
  · rcases d with _ | d
    · rfl
    · show (d + 1) * 10 = max (d + 1) 1 * 10
      rw [Nat.max_eq_left (by omega)]

lemma applyDisposal_of_other (w h : Nat) (fi : FrameInfo)
    (snap : Option (List Nat)) (buf : List Nat)
    (h2 : fi.disposal ≠ 2) (h3 : fi.disposal ≠ 3) :
    applyDisposal w h fi snap buf = buf := by
  rw [applyDisposal.eq_def, if_neg h2, if_neg h3]

lemma applyDisposal_none_of_disposal3 (w h : Nat) (fi : FrameInfo)
    (buf : List Nat) (hd : fi.disposal = 3) :
    applyDisposal w h fi none buf = buf := by
  rw [applyDisposal.eq_def, if_neg (by omega), if_pos hd]

lemma canvasStarting_succ_of_disposal2 (p : GifParser) {i : Nat}
    (hd : (p.frameInfo i).disposal = 2) :
    canvasStarting p (i + 1) =
      fillBackground p.width p.height (p.frameInfo i)
        (stateAfter p (i + 1)).canvasBuffer := by
  rw [canvasStarting_eq, if_pos (by omega)]
  simp only [Nat.add_sub_cancel]
  rw [applyDisposal.eq_def, if_pos hd]

lemma canvasStarting_succ_of_disposal3 (p : GifParser) {i : Nat}
    (hd : (p.frameInfo i).disposal = 3) :
    canvasStarting p (i + 1) = canvasStarting p i := by
  rw [canvasStarting_eq, if_pos (by omega)]
  simp only [Nat.add_sub_cancel]
  rw [snapshot_of_disposal3 p hd, applyDisposal.eq_def,
    if_neg (by omega), if_pos hd]
  show typedArraySet (stateAfter p (i + 1)).canvasBuffer (canvasStarting p i) = _
  exact typedArraySet_of_length_eq
    (by rw [length_canvasStarting, length_canvasBuffer])

lemma canvasStarting_succ_of_other (p : GifParser) {i : Nat}
    (h2 : (p.frameInfo i).disposal ≠ 2) (h3 : (p.frameInfo i).disposal ≠ 3) :
    canvasStarting p (i + 1) = (stateAfter p (i + 1)).canvasBuffer := by
  rw [canvasStarting_eq, if_pos (by omega)]
  simp only [Nat.add_sub_cancel]
  exact applyDisposal_of_other _ _ _ _ _ h2 h3

/-- Claim C1: for every decode and every frame `i` with disposal code 2, the
canvas used to start frame `i+1` is opaque white (255,255,255,255) at every
pixel of frame `i`'s rectangle clamped to canvas bounds, while frame `i`'s
own emitted OutputFrame is the canvas as it stood right after frame `i`'s
blit — the reset does not affect it. -/
theorem disposal2_background_invariant (p : GifParser) (i x y k : Nat)
    (hi : i < p.numFrames)
    (hd : (p.frameInfo i).disposal = 2)
    (hy1 : (p.frameInfo i).y ≤ y)
    (hy2 : y < (p.frameInfo i).y + (p.frameInfo i).height)
    (hyh : y < p.height)
    (hx1 : (p.frameInfo i).x ≤ x)
    (hx2 : x < (p.frameInfo i).x + (p.frameInfo i).width)
    (hxw : x < p.width)
    (hk : k < 4) :
    (canvasStarting p (i + 1))[(y * p.width + x) * 4 + k]? = some 255 ∧
    (decodeGif p).frames[i]? =
      some { data := (stateAfter p (i + 1)).canvasBuffer
             delay := delayOrDefault (p.frameInfo i).delay * 10
             width := p.width
             height := p.height } := by
  have hmem : (y * p.width + x) * 4 + k ∈
      fillIdxs p.width p.height (p.frameInfo i) :=
    mem_fillIdxs.mpr ⟨y, x, k, hy1, hy2, hyh, hx1, hx2, hxw, hk, rfl⟩
  constructor
  · rw [canvasStarting_succ_of_disposal2 p hd]
    exact getElem?_fill255_mem hmem
      (by rw [length_canvasBuffer]; exact fillIdxs_lt hmem)
  · show (stateAfter p p.numFrames).frames[i]? = _
    rw [getElem?_frames p hi, emittedFrame.eq_def, ← stateAfter_succ_canvas]

/-- Claim C2: for every frame `i` with disposal code 3, a snapshot equal to
the canvas just before frame `i`'s blit is stored, and the canvas used to
start frame `i+1` is bit-identical to that pre-blit canvas; when no
snapshot exists, a disposal-3 transition leaves the canvas unchanged; and
the snapshot never influences a transition out of a frame whose disposal
code is not 3, so snapshots do not leak across non-adjacent transitions. -/
theorem disposal3_restore_invariant (p : GifParser) (i : Nat)
    (hd : (p.frameInfo i).disposal = 3) :
    (stateAfter p (i + 1)).previousCanvasBuffer =
      some (canvasStarting p i) ∧
    canvasStarting p (i + 1) = canvasStarting p i ∧
    (∀ (w h : Nat) (fi : FrameInfo) (buf : List Nat), fi.disposal = 3 →
      applyDisposal w h fi none buf = buf) ∧
    (∀ j, (p.frameInfo j).disposal ≠ 2 → (p.frameInfo j).disposal ≠ 3 →
      canvasStarting p (j + 1) = (stateAfter p (j + 1)).canvasBuffer) :=
  ⟨snapshot_of_disposal3 p hd, canvasStarting_succ_of_disposal3 p hd,
    fun w h fi buf hfi => applyDisposal_none_of_disposal3 w h fi buf hfi,
    fun _ h2 h3 => canvasStarting_succ_of_other p h2 h3⟩

/-- Claim C3: the decode returns exactly `numFrames` OutputFrame entries in frame
order, each with a pixel buffer of byte length `width*height*4`; with zero
frames it returns the empty frame list with the reported dimensions. -/
theorem frame_count_and_sizes (p : GifParser)
    (hw : 0 < p.width) (hh : 0 < p.height) :
    (decodeGif p).frames.length = p.numFrames ∧
    (∀ i, i < p.numFrames →
      (decodeGif p).frames[i]? = some (emittedFrame p i) ∧
      (emittedFrame p i).data.length = p.width * p.height * 4) ∧
    (p.numFrames = 0 →
      decodeGif p = { frames := [], width := p.width, height := p.height }) := by
  refine ⟨length_frames p p.numFrames, fun i hi => ⟨getElem?_frames p hi, ?_⟩, ?_⟩
  · rw [emittedFrame.eq_def]
    simp only
    rw [length_applyWrites, length_canvasStarting]
  · intro h0
    rw [decodeGif.eq_def, h0]
    rfl

/-- Claim C4: every emitted delay equals `max(rawDelayCentiseconds, 1) * 10`
milliseconds with the raw value defaulting to 10 when absent or zero; in
particular absent or 0 gives 100 ms, 5 gives 50 ms, and 1 gives 10 ms. -/
theorem delay_conversion_spec (p : GifParser) (i : Nat)
    (hi : i < p.numFrames) :
    (∃ f, (decodeGif p).frames[i]? = some f ∧
      f.delay = specDelay (p.frameInfo i).delay) ∧
    specDelay none = 100 ∧ specDelay (some 0) = 100 ∧
    specDelay (some 5) = 50 ∧ specDelay (some 1) = 10 := by
  refine ⟨⟨emittedFrame p i, getElem?_frames p hi, ?_⟩, rfl, rfl, rfl, rfl⟩
  rw [emittedFrame.eq_def]
  exact delayOrDefault_eq_specDelay (p.frameInfo i).delay

/-- Claim C7: for a frame `i` whose disposal code is 0 or 1, the canvas used to
start frame `i+1` is exactly the canvas after frame `i`'s blit: the
transition changes no pixel. -/
theorem disposal01_carries_forward (p : GifParser) (i : Nat)
    (hd : (p.frameInfo i).disposal = 0 ∨ (p.frameInfo i).disposal = 1) :
    canvasStarting p (i + 1) = (stateAfter p (i + 1)).canvasBuffer ∧
    (stateAfter p (i + 1)).canvasBuffer =
      applyWrites (p.blit i) (canvasStarting p i) :=
  ⟨canvasStarting_succ_of_other p (by omega) (by omega),
    stateAfter_succ_canvas p i⟩

/-- Claim C8: the disposal-2 background fill is silently clamped: it preserves
the buffer length, every visited index lies inside the `width*height*4`
canvas, any byte whose index is not visited is unchanged, and the visited
indices are exactly the bytes of the rectangle clamped to canvas bounds. -/
theorem disposal2_clamped_safe (w h : Nat) (fi : FrameInfo)
    (buf : List Nat) :
    (fillBackground w h fi buf).length = buf.length ∧
    (∀ j, j ∈ fillIdxs w h fi → j < w * h * 4) ∧
    (∀ j, j ∉ fillIdxs w h fi → (fillBackground w h fi buf)[j]? = buf[j]?) ∧
    (∀ j, j ∈ fillIdxs w h fi ↔
      ∃ y x k, fi.y ≤ y ∧ y < fi.y + fi.height ∧ y < h ∧
        fi.x ≤ x ∧ x < fi.x + fi.width ∧ x < w ∧ k < 4 ∧
        j = (y * w + x) * 4 + k) :=
  ⟨length_fillBackground w h fi buf,
    fun _ hj => fillIdxs_lt hj,
    fun _ hj => getElem?_fill255_notMem buf hj,
    fun _ => mem_fillIdxs⟩

/-- Claim C10: whenever frame `i` has disposal code 3, the snapshot stored after
iteration `i` is non-null and equals the canvas immediately before frame
`i`'s blit, so the no-snapshot fallback of the disposal-3 transition into
frame `i+1` is unreachable. -/
theorem snapshot_invariant_disposal3 (p : GifParser) (i : Nat)
    (hd : (p.frameInfo i).disposal = 3) :
    (stateAfter p (i + 1)).previousCanvasBuffer ≠ none ∧
    ∃ s, (stateAfter p (i + 1)).previousCanvasBuffer = some s ∧
      s = canvasStarting p i := by
  rw [snapshot_of_disposal3 p hd]
  exact ⟨Option.some_ne_none _, canvasStarting p i, rfl, rfl⟩

lemma stepFrame_congr (p q : GifParser) (st : DecodeState) (i : Nat)
    (hw : p.width = q.width) (hh : p.height = q.height)
    (hb : p.blit i = q.blit i)
    (hfi : p.frameInfo i = q.frameInfo i)
    (hprev : i > 0 → p.frameInfo (i - 1) = q.frameInfo (i - 1)) :
    stepFrame p st i = stepFrame q st i := by
  by_cases hi : i > 0
  · simp only [stepFrame, hw, hh, hb, hfi, hprev hi, if_pos hi]
  · simp only [stepFrame, hw, hh, hb, hfi, if_neg hi]

lemma stepFrame_congr_except_disposal (p q : GifParser) (st : DecodeState)
    (i : Nat)
    (hw : p.width = q.width) (hh : p.height = q.height)
    (hb : p.blit i = q.blit i)
    (hdelay : (p.frameInfo i).delay = (q.frameInfo i).delay)
    (hprev : i > 0 → p.frameInfo (i - 1) = q.frameInfo (i - 1)) :
    (stepFrame p st i).canvasBuffer = (stepFrame q st i).canvasBuffer ∧
    (stepFrame p st i).frames = (stepFrame q st i).frames := by
  by_cases hi : i > 0
  · constructor <;>
      simp only [stepFrame, hw, hh, hb, hdelay, hprev hi, if_pos hi]
  · constructor <;>
      simp only [stepFrame, hw, hh, hb, hdelay, if_neg hi]

lemma stateAfter_congr (p q : GifParser)
    (hw : p.width = q.width) (hh : p.height = q.height)
    (hb : ∀ i, p.blit i = q.blit i)
    (hf : ∀ i, i + 1 < p.numFrames → p.frameInfo i = q.frameInfo i) :
    ∀ n, n < p.numFrames → stateAfter p n = stateAfter q n := by
  intro n
  induction n with
  | zero =>
    intro _
    simp [stateAfter, initState, initCanvas, hw, hh]
  | succ m ih =>
    intro hm
    rw [stateAfter_succ, stateAfter_succ, ih (by omega)]
    exact stepFrame_congr p q (stateAfter q m) m hw hh (hb m)
      (hf m hm) (fun hm0 => hf (m - 1) (by omega))

/-- Claim C6: disposal of frame `i` is applied only on the transition into frame
`i+1` and none is applied before frame 0; consequently two parsers
identical except for the last frame's disposal code decode to identical
outputs. -/
theorem last_disposal_unobservable (p q : GifParser)
    (hw : p.width = q.width) (hh : p.height = q.height)
    (hn : p.numFrames = q.numFrames)
    (hb : ∀ i, p.blit i = q.blit i)
    (hf : ∀ i, i + 1 < p.numFrames → p.frameInfo i = q.frameInfo i)
    (hl : ∀ i, i + 1 = p.numFrames →
      (p.frameInfo i).x = (q.frameInfo i).x ∧
      (p.frameInfo i).y = (q.frameInfo i).y ∧
      (p.frameInfo i).width = (q.frameInfo i).width ∧
      (p.frameInfo i).height = (q.frameInfo i).height ∧
      (p.frameInfo i).delay = (q.frameInfo i).delay) :
    decodeGif p = decodeGif q ∧
    canvasStarting p 0 = initCanvas p.width p.height := by
  refine ⟨?_, rfl⟩
  rcases hN : p.numFrames with _ | m
  · rw [decodeGif.eq_def, decodeGif.eq_def, hN, ← hn, hN, hw, hh]
    rfl
  · have hframes : (stateAfter p (m + 1)).frames = (stateAfter q (m + 1)).frames := by
      rw [stateAfter_succ, stateAfter_succ,
        stateAfter_congr p q hw hh hb hf m (by omega)]
      exact (stepFrame_congr_except_disposal p q (stateAfter q m) m hw hh
        (hb m) (hl m hN.symm).2.2.2.2
        (fun hm0 => hf (m - 1) (by omega))).2
    rw [decodeGif.eq_def, decodeGif.eq_def, hN, ← hn, hN, hframes, hw, hh]

lemma exceptBindError {ε α β : Type} (e : ε) (f : α → Except ε β) :
    (Except.error e >>= f) = Except.error e := rfl

lemma exceptBindOk {ε α β : Type} (a : α) (f : α → Except ε β) :
    (Except.ok a >>= f) = f a := rfl

lemma exceptPureBind {ε α β : Type} (a : α) (f : α → Except ε β) :
    ((pure a : Except ε α) >>= f) = f a := rfl

lemma exceptPure {ε α : Type} (a : α) :
    (pure a : Except ε α) = Except.ok a := rfl

lemma foldlM_error_source {ε α β : Type} (f : β → α → Except ε β)
    (l : List α) (b : β) (e : ε) (h : l.foldlM f b = .error e) :
    ∃ a ∈ l, ∃ b2, f b2 a = .error e := by
  induction l generalizing b with
  | nil =>
    rw [List.foldlM_nil, exceptPure] at h
    exact Except.noConfusion h
  | cons a t ih =>
    rw [List.foldlM_cons] at h
    rcases hfa : f b a with e2 | b2 <;> rw [hfa] at h
    · rw [exceptBindError] at h
      obtain rfl := Except.error.inj h
      exact ⟨a, List.mem_cons_self a t, b, hfa⟩
    · rw [exceptBindOk] at h
      rcases ih b2 h with ⟨a2, ha2, b3, hb3⟩
      exact ⟨a2, List.mem_cons_of_mem a ha2, b3, hb3⟩

lemma foldlM_ok_of_total {ε α β : Type} (f : β → α → Except ε β)
    (g : β → α → β) (l : List α) (b : β)
    (hfg : ∀ b2 a, a ∈ l → f b2 a = .ok (g b2 a)) :
    l.foldlM f b = .ok (l.foldl g b) := by
  induction l generalizing b with
  | nil => rfl
  | cons a t ih =>
    rw [List.foldlM_cons, hfg b a (List.mem_cons_self a t), exceptBindOk,
      List.foldl_cons]
    exact ih (g b a) (fun b2 a2 ha2 => hfg b2 a2 (List.mem_cons_of_mem a ha2))

lemma stepFrameE_error_source {ε : Type} (p : GifReaderOps ε)
    (st : DecodeState) (i : Nat) (e : ε)
    (h : stepFrameE p st i = .error e) :
    p.frameInfo i = .error e ∨ (i > 0 ∧ p.frameInfo (i - 1) = .error e) ∨
      p.blit i = .error e := by
  rw [stepFrameE] at h
  rcases hfi : p.frameInfo i with e1 | fi <;> rw [hfi] at h
  · rw [exceptBindError] at h
    obtain rfl := Except.error.inj h
    exact Or.inl rfl
  · simp only [exceptBindOk] at h
    by_cases hi : i > 0
    · rw [if_pos hi] at h
      rcases hprev : p.frameInfo (i - 1) with e2 | prevFi <;> rw [hprev] at h
      · obtain rfl := Except.error.inj h
        exact Or.inr (Or.inl ⟨hi, rfl⟩)
      · simp only [exceptBindOk, exceptPureBind] at h
        rcases hb : p.blit i with e3 | ws <;> rw [hb] at h
        · rw [exceptBindError] at h
          obtain rfl := Except.error.inj h
          exact Or.inr (Or.inr rfl)
        · simp only [exceptBindOk, exceptPure] at h
          exact Except.noConfusion h
    · rw [if_neg hi] at h
      simp only [exceptPureBind] at h
      rcases hb : p.blit i with e3 | ws <;> rw [hb] at h
      · rw [exceptBindError] at h
        obtain rfl := Except.error.inj h
        exact Or.inr (Or.inr rfl)
      · simp only [exceptBindOk, exceptPure] at h
        exact Except.noConfusion h

lemma stepFrameE_lift {ε : Type} (q : GifParser) (st : DecodeState)
    (i : Nat) :
    stepFrameE (liftReader ε q) st i = .ok (stepFrame q st i) := by
  by_cases hi : i > 0
  · simp only [stepFrameE, stepFrame, liftReader, exceptBindOk,
      exceptPureBind, if_pos hi, exceptPure]
  · simp only [stepFrameE, stepFrame, liftReader, exceptBindOk,
      exceptPureBind, if_neg hi, exceptPure]

/-- Claim C9: the decode raises no error of its own — an error result is always
an error returned by the parser (construction, some frameInfo call, or
some blit call on a frame index below the frame count), and a parser none
of whose operations fails always yields the full output, so there is no
partial result. -/
theorem parser_errors_propagate {ε : Type}
    (reader : Except ε (GifReaderOps ε)) :
    (∀ e, decodeGifE reader = .error e →
      reader = .error e ∨
      ∃ p, reader = .ok p ∧ ∃ i, i < p.numFrames ∧
        (p.frameInfo i = .error e ∨ p.blit i = .error e)) ∧
    (∀ q : GifParser, decodeGifE (.ok (liftReader ε q)) = .ok (decodeGif q)) := by
  constructor
  · intro e he
    rcases hr : reader with er | p <;> rw [hr] at he
    · rw [decodeGifE, exceptBindError] at he
      obtain rfl := Except.error.inj he
      exact Or.inl rfl
    · rw [decodeGifE] at he
      simp only [exceptBindOk] at he
      rcases hF : (List.range p.numFrames).foldlM (stepFrameE p)
          (initStateE p) with eF | final <;> rw [hF] at he
      · rw [exceptBindError] at he
        obtain rfl := Except.error.inj he
        rcases foldlM_error_source _ _ _ _ hF with ⟨i, hmem, st2, hstep⟩
        have hilt : i < p.numFrames := List.mem_range.mp hmem
        rcases stepFrameE_error_source p st2 i eF hstep with hc | ⟨hi0, hc⟩ | hc
        · exact Or.inr ⟨p, rfl, i, hilt, Or.inl hc⟩
        · exact Or.inr ⟨p, rfl, i - 1, by omega, Or.inl hc⟩
        · exact Or.inr ⟨p, rfl, i, hilt, Or.inr hc⟩
      · rw [exceptBindOk, exceptPure] at he
        exact Except.noConfusion he
  · intro q
    rw [decodeGifE, exceptBindOk,
      foldlM_ok_of_total (stepFrameE (liftReader ε q)) (stepFrame q) _ _
        (fun st a _ => stepFrameE_lift q st a),
      exceptBindOk, exceptPure]
    rfl

lemma Heap.length_write (h : Heap) (a : Nat) (v : List Nat) :
    (h.write a v).store.length = h.store.length := by
  simp [Heap.write]

lemma Heap.length_alloc (h : Heap) (v : List Nat) :
    (h.alloc v).2.store.length = h.store.length + 1 := by
  simp [Heap.alloc]

lemma Heap.alloc_fst (h : Heap) (v : List Nat) :
    (h.alloc v).1 = h.store.length := rfl

lemma Heap.lookup_write_self (h : Heap) {a : Nat} (ha : a < h.store.length)
    (v : List Nat) : (h.write a v).lookup a = v := by
  simp [Heap.write, Heap.lookup, List.getElem?_set_eq_of_lt v ha]

lemma Heap.lookup_write_ne (h : Heap) {a b : Nat} (hab : a ≠ b)
    (v : List Nat) : (h.write a v).lookup b = h.lookup b := by
  simp [Heap.write, Heap.lookup, List.getElem?_set_ne hab]

lemma Heap.lookup_alloc_new (h : Heap) (v : List Nat) :
    (h.alloc v).2.lookup h.store.length = v := by
  simp [Heap.alloc, Heap.lookup, List.getElem?_append_right (Nat.le_refl _)]

lemma Heap.lookup_alloc_old (h : Heap) {b : Nat} (hb : b < h.store.length)
    (v : List Nat) : (h.alloc v).2.lookup b = h.lookup b := by
  simp [Heap.alloc, Heap.lookup, List.getElem?_append_left hb]

lemma stepFrameH_canvasAddr (p : GifParser) (st : HeapState) (i : Nat) :
    (stepFrameH p st i).canvasAddr = st.canvasAddr := rfl

lemma stepFrameH_heap_length (p : GifParser) (st : HeapState) (i : Nat) :
    (stepFrameH p st i).heap.store.length =
      st.heap.store.length +
        (if (p.frameInfo i).disposal = 3 then 2 else 1) := by
  by_cases hd3 : (p.frameInfo i).disposal = 3 <;>
    by_cases hi : i > 0 <;>
      simp [stepFrameH, hd3, hi, Heap.length_write, Heap.length_alloc]

lemma stepFrameH_snapAddr (p : GifParser) (st : HeapState) (i : Nat) :
    (stepFrameH p st i).snapAddr =
      (if (p.frameInfo i).disposal = 3 then some st.heap.store.length
       else st.snapAddr) := by
  by_cases hd3 : (p.frameInfo i).disposal = 3 <;>
    by_cases hi : i > 0 <;>
      simp [stepFrameH, hd3, hi, Heap.alloc_fst, Heap.length_write]

lemma stepFrameH_frames (p : GifParser) (st : HeapState) (i : Nat) :
    (stepFrameH p st i).frames = st.frames ++
      [{ dataAddr := st.heap.store.length +
           (if (p.frameInfo i).disposal = 3 then 1 else 0)
         delay := delayOrDefault (p.frameInfo i).delay * 10
         width := p.width
         height := p.height }] := by
  by_cases hd3 : (p.frameInfo i).disposal = 3 <;>
    by_cases hi : i > 0 <;>
      simp [stepFrameH, hd3, hi, Heap.alloc_fst, Heap.length_write,
        Heap.length_alloc]

lemma heapInv_init (p : GifParser) : HeapInv (initStateH p) := by
  refine ⟨?_, ?_, ?_, ?_⟩ <;>
    simp [initStateH, Heap.alloc, HeapInv]

lemma heapInv_step (p : GifParser) (st : HeapState) (i : Nat)
    (hinv : HeapInv st) : HeapInv (stepFrameH p st i) := by
  obtain ⟨hca, hpw, hfr, hsnap⟩ := hinv
  by_cases hd3 : (p.frameInfo i).disposal = 3
  · refine ⟨?_, ?_, ?_, ?_⟩
    · simp only [stepFrameH_heap_length, stepFrameH_canvasAddr, hd3, if_pos]
      omega
    · simp only [stepFrameH_frames, hd3, if_pos, List.map_append]
      rw [List.pairwise_append]
      refine ⟨hpw, by simp, ?_⟩
      intro a ha b hb
      simp only [List.map_cons, List.map_nil, List.mem_cons,
        List.not_mem_nil, or_false] at hb
      subst hb
      rcases List.mem_map.mp ha with ⟨fr, hfrmem, rfl⟩
      have h1 := (hfr fr hfrmem).1
      omega
    · simp only [stepFrameH_frames, stepFrameH_heap_length,
        stepFrameH_canvasAddr, stepFrameH_snapAddr, hd3, if_pos]
      intro fr hmem
      rcases List.mem_append.mp hmem with hmem | hmem
      · obtain ⟨h1, h2, h3⟩ := hfr fr hmem
        refine ⟨by omega, h2, ?_⟩
        intro sa hsa
        rw [Option.mem_def, Option.some_inj] at hsa
        omega
      · simp only [List.mem_singleton] at hmem
        subst hmem
        refine ⟨by simp, by simp; omega, ?_⟩
        intro sa hsa
        rw [Option.mem_def, Option.some_inj] at hsa
        simp
        omega
    · simp only [stepFrameH_snapAddr, stepFrameH_heap_length,
        stepFrameH_canvasAddr, hd3, if_pos]
      intro sa hsa
      rw [Option.mem_def, Option.some_inj] at hsa
      subst hsa
      exact ⟨by omega, by omega⟩
  · refine ⟨?_, ?_, ?_, ?_⟩
    · simp only [stepFrameH_heap_length, stepFrameH_canvasAddr, hd3,
        if_neg, if_false]
      omega
    · simp only [stepFrameH_frames, hd3, if_neg, if_false, List.map_append]
      rw [List.pairwise_append]
      refine ⟨hpw, by simp, ?_⟩
      intro a ha b hb
      simp only [List.map_cons, List.map_nil, List.mem_cons,
        List.not_mem_nil, or_false] at hb
      subst hb
      rcases List.mem_map.mp ha with ⟨fr, hfrmem, rfl⟩
      have h1 := (hfr fr hfrmem).1
      simp only [Nat.add_zero]
      omega
    · simp only [stepFrameH_frames, stepFrameH_heap_length,
        stepFrameH_canvasAddr, stepFrameH_snapAddr, hd3, if_neg, if_false]
      intro fr hmem
      rcases List.mem_append.mp hmem with hmem | hmem
      · obtain ⟨h1, h2, h3⟩ := hfr fr hmem
        exact ⟨by omega, h2, h3⟩
      · simp only [List.mem_singleton] at hmem
        subst hmem
        refine ⟨by simp, by simp; omega, ?_⟩
        intro sa hsa
        have h4 := (hsnap sa hsa).1
        simp
        omega
    · simp only [stepFrameH_snapAddr, stepFrameH_heap_length,
        stepFrameH_canvasAddr, hd3, if_neg, if_false]
      intro sa hsa
      obtain ⟨h1, h2⟩ := hsnap sa hsa
      exact ⟨by omega, h2⟩

lemma heapInv_stateAfterH (p : GifParser) (n : Nat) :
    HeapInv (stateAfterH p n) := by
  induction n with
  | zero => exact heapInv_init p
  | succ m ih =>
    have hsucc : stateAfterH p (m + 1) = stepFrameH p (stateAfterH p m) m := by
      simp [stateAfterH, List.range_succ]
    rw [hsucc]
    exact heapInv_step p (stateAfterH p m) m ih

/-- Claim C5: every emitted OutputFrame buffer is an independent allocation made
at emission time: in the heap model the frame buffer addresses are pairwise
distinct and different from the canvas address and the snapshot address,
and overwriting one emitted frame's buffer after the decode returns leaves
every other emitted frame's bytes unchanged. -/
theorem output_buffers_independent (p : GifParser) (j k : Nat)
    (fj fk : FrameRef) (v : List Nat)
    (hj : (decodeGifH p).frames[j]? = some fj)
    (hk : (decodeGifH p).frames[k]? = some fk)
    (hjk : j ≠ k) :
    fj.dataAddr ≠ fk.dataAddr ∧
    fj.dataAddr ≠ (decodeGifH p).canvasAddr ∧
    (∀ sa ∈ (decodeGifH p).snapAddr, fj.dataAddr ≠ sa) ∧
    ((decodeGifH p).heap.write fj.dataAddr v).lookup fk.dataAddr =
      (decodeGifH p).heap.lookup fk.dataAddr := by
  have hinv : HeapInv (decodeGifH p) := heapInv_stateAfterH p p.numFrames
  obtain ⟨hca, hpw, hfr, hsnap⟩ := hinv
  have hjl : j < (decodeGifH p).frames.length := by
    rcases List.getElem?_eq_some.mp hj with ⟨hlt, _⟩
    exact hlt
  have hkl : k < (decodeGifH p).frames.length := by
    rcases List.getElem?_eq_some.mp hk with ⟨hlt, _⟩
    exact hlt
  have hjget : (decodeGifH p).frames[j] = fj := by
    have h2 := List.getElem?_eq_getElem hjl
    rw [hj] at h2
    exact (Option.some_inj.mp h2).symm
  have hkget : (decodeGifH p).frames[k] = fk := by
    have h2 := List.getElem?_eq_getElem hkl
    rw [hk] at h2
    exact (Option.some_inj.mp h2).symm
  have hmap := List.pairwise_iff_getElem.mp hpw
  have hne : fj.dataAddr ≠ fk.dataAddr := by
    have hlen : ((decodeGifH p).frames.map FrameRef.dataAddr).length =
        (decodeGifH p).frames.length := List.length_map ..
    rcases Nat.lt_or_ge j k with hlt | hge
    · have := hmap j k (by omega) (by omega) hlt
      simp only [List.getElem_map] at this
      rw [hjget, hkget] at this
      omega
    · have hkj : k < j := by omega
      have := hmap k j (by omega) (by omega) hkj
      simp only [List.getElem_map] at this
      rw [hjget, hkget] at this
      omega
  have hjmem : fj ∈ (decodeGifH p).frames := by
    rw [← hjget]
    exact List.getElem_mem ..
  obtain ⟨_, hfca, hfsnap⟩ := hfr fj hjmem
  exact ⟨hne, hfca, hfsnap,
    Heap.lookup_write_ne (decodeGifH p).heap hne v⟩

/-- Sanity cross-check: for the example parser, reading every buffer of the
heap-model decode back gives exactly the pure-model loop state. -/
lemma absState_decodeGifH_exParser :
    absState (decodeGifH exParser) = stateAfter exParser exParser.numFrames := by
  decide

/-- Witness for Claim C1 on the example parser (frame 0 has disposal 2). -/
theorem disposal2_background_invariant_witness :
    (canvasStarting exParser (0 + 1))[(0 * exParser.width + 1) * 4 + 0]? =
      some 255 ∧
    (decodeGif exParser).frames[0]? =
      some { data := (stateAfter exParser (0 + 1)).canvasBuffer
             delay := delayOrDefault (exParser.frameInfo 0).delay * 10
             width := exParser.width
             height := exParser.height } :=
  disposal2_background_invariant exParser 0 1 0 0 (by decide) (by decide)
    (by decide) (by decide) (by decide) (by decide) (by decide) (by decide)
    (by decide)

/-- Witness for Claim C2 on the example parser (frame 1 has disposal 3). -/
theorem disposal3_restore_invariant_witness :
    (stateAfter exParser (1 + 1)).previousCanvasBuffer =
      some (canvasStarting exParser 1) ∧
    canvasStarting exParser (1 + 1) = canvasStarting exParser 1 ∧
    (∀ (w h : Nat) (fi : FrameInfo) (buf : List Nat), fi.disposal = 3 →
      applyDisposal w h fi none buf = buf) ∧
    (∀ j, (exParser.frameInfo j).disposal ≠ 2 →
      (exParser.frameInfo j).disposal ≠ 3 →
      canvasStarting exParser (j + 1) =
        (stateAfter exParser (j + 1)).canvasBuffer) :=
  disposal3_restore_invariant exParser 1 (by decide)

/-- Witness for Claim C3 on the example parser. -/
theorem frame_count_and_sizes_witness :
    (decodeGif exParser).frames.length = exParser.numFrames ∧
    (∀ i, i < exParser.numFrames →
      (decodeGif exParser).frames[i]? = some (emittedFrame exParser i) ∧
      (emittedFrame exParser i).data.length =
        exParser.width * exParser.height * 4) ∧
    (exParser.numFrames = 0 →
      decodeGif exParser =
        { frames := [], width := exParser.width, height := exParser.height }) :=
  frame_count_and_sizes exParser (by decide) (by decide)

/-- Witness for Claim C4 on the example parser (frame 0 raw delay 5). -/
theorem delay_conversion_spec_witness :
    (∃ f, (decodeGif exParser).frames[0]? = some f ∧
      f.delay = specDelay (exParser.frameInfo 0).delay) ∧
    specDelay none = 100 ∧ specDelay (some 0) = 100 ∧
    specDelay (some 5) = 50 ∧ specDelay (some 1) = 10 :=
  delay_conversion_spec exParser 0 (by decide)

/-- Witness for Claim C5 on the example parser's first two frames. -/
theorem output_buffers_independent_witness :
    (⟨1, 50, 2, 2⟩ : FrameRef).dataAddr ≠
      (⟨3, 100, 2, 2⟩ : FrameRef).dataAddr ∧
    (⟨1, 50, 2, 2⟩ : FrameRef).dataAddr ≠ (decodeGifH exParser).canvasAddr ∧
    (∀ sa ∈ (decodeGifH exParser).snapAddr,
      (⟨1, 50, 2, 2⟩ : FrameRef).dataAddr ≠ sa) ∧
    ((decodeGifH exParser).heap.write
        (⟨1, 50, 2, 2⟩ : FrameRef).dataAddr []).lookup
        (⟨3, 100, 2, 2⟩ : FrameRef).dataAddr =
      (decodeGifH exParser).heap.lookup
        (⟨3, 100, 2, 2⟩ : FrameRef).dataAddr :=
  output_buffers_independent exParser 0 1 ⟨1, 50, 2, 2⟩ ⟨3, 100, 2, 2⟩ []
    (by decide) (by decide) (by decide)

/-- Witness for Claim C6: the example parsers differ only in the last
frame's disposal code and decode identically. -/
theorem last_disposal_unobservable_witness :
    decodeGif exParser = decodeGif exParser2 ∧
    canvasStarting exParser 0 = initCanvas exParser.width exParser.height :=
  last_disposal_unobservable exParser exParser2 rfl rfl rfl (fun _ => rfl)
    (fun i hi => by
      have hn3 : exParser.numFrames = 3 := rfl
      have hi2 : i = 0 ∨ i = 1 := by omega
      rcases hi2 with rfl | rfl <;> rfl)
    (fun i hi => by
      have hn3 : exParser.numFrames = 3 := rfl
      have hi2 : i = 2 := by omega
      subst hi2
      exact ⟨rfl, rfl, rfl, rfl, rfl⟩)

/-- Witness for Claim C7 on the example parser (frame 2 has disposal 1). -/
theorem disposal01_carries_forward_witness :
    canvasStarting exParser (2 + 1) =
      (stateAfter exParser (2 + 1)).canvasBuffer ∧
    (stateAfter exParser (2 + 1)).canvasBuffer =
      applyWrites (exParser.blit 2) (canvasStarting exParser 2) :=
  disposal01_carries_forward exParser 2 (by decide)

/-- Witness for Claim C8 on the example out-of-bounds rectangle. -/
theorem disposal2_clamped_safe_witness :
    (fillBackground 2 2 (exFrameInfo 0) (initCanvas 2 2)).length =
      (initCanvas 2 2).length ∧
    (∀ j, j ∈ fillIdxs 2 2 (exFrameInfo 0) → j < 2 * 2 * 4) ∧
    (∀ j, j ∉ fillIdxs 2 2 (exFrameInfo 0) →
      (fillBackground 2 2 (exFrameInfo 0) (initCanvas 2 2))[j]? =
        (initCanvas 2 2)[j]?) ∧
    (∀ j, j ∈ fillIdxs 2 2 (exFrameInfo 0) ↔
      ∃ y x k, (exFrameInfo 0).y ≤ y ∧
        y < (exFrameInfo 0).y + (exFrameInfo 0).height ∧ y < 2 ∧
        (exFrameInfo 0).x ≤ x ∧
        x < (exFrameInfo 0).x + (exFrameInfo 0).width ∧ x < 2 ∧
        k < 4 ∧ j = (y * 2 + x) * 4 + k) :=
  disposal2_clamped_safe 2 2 (exFrameInfo 0) (initCanvas 2 2)

/-- Witness for Claim C9: a never-failing reader built from the example
parser. -/
theorem parser_errors_propagate_witness :
    (∀ e, decodeGifE (Except.ok (liftReader String exParser)) = .error e →
      (Except.ok (liftReader String exParser) :
          Except String (GifReaderOps String)) = .error e ∨
      ∃ p, (Except.ok (liftReader String exParser) :
          Except String (GifReaderOps String)) = .ok p ∧
        ∃ i, i < p.numFrames ∧
          (p.frameInfo i = .error e ∨ p.blit i = .error e)) ∧
    (∀ q : GifParser,
      decodeGifE (.ok (liftReader String q)) = .ok (decodeGif q)) :=
  parser_errors_propagate (Except.ok (liftReader String exParser))

/-- Witness for Claim C10 on the example parser (frame 1 has disposal 3). -/
theorem snapshot_invariant_disposal3_witness :
    (stateAfter exParser (1 + 1)).previousCanvasBuffer ≠ none ∧
    ∃ s, (stateAfter exParser (1 + 1)).previousCanvasBuffer = some s ∧
      s = canvasStarting exParser 1 :=
  snapshot_invariant_disposal3 exParser 1 (by decide)
